import Mathlib

/-!
Verification of the Qutrit repository's pulse parameter model
(src/pulse.py), its calibration mutation entry point
(src/calibration/transmission_reflection.py), and the unitary
decomposer contract of the spec.

Python objects are shallowly embedded as a heap: every constructed
pulse lives in the process-wide list `Pulse.pulse_list`, and object
references are positions in that list.  Python floats are modelled as
rationals, Python ints as integers, and `uuid.uuid4()` as a fresh
identifier (the index at creation time), which captures the intended
uniqueness of ids.
-/

namespace QutritPulse

/-- Scalar fields assigned by `Pulse.__init__` (src/pulse.py lines 101-108):
frequency, x_amp, sx_amp, beta_leakage, beta_dephase, duration, the derived
sigma, and the id. -/
structure PulseCore where
  frequency : ℚ
  x_amp : ℚ
  sx_amp : ℚ
  beta_dephase : ℚ
  beta_leakage : ℚ
  duration : ℤ
  sigma : ℚ
  id : ℕ
deriving DecidableEq, Repr, Inhabited

/-- Subclass-specific data: a `Pulse01` holds an optional reference to its
`Pulse12` partner, a `Pulse12` holds a reference to its `Pulse01`
(src/pulse.py lines 135 and 189).  References are heap positions. -/
inductive PulseKind where
  | p01 (pulse12 : Option ℕ)
  | p12 (pulse01 : ℕ)
deriving DecidableEq, Repr

/-- A pulse object: the shared scalar core plus the subclass data. -/
structure PulseObj where
  core : PulseCore
  kind : PulseKind
deriving DecidableEq, Repr

instance : Inhabited PulseObj := ⟨⟨default, .p01 none⟩⟩

/-- Process state: the class attribute `Pulse.pulse_list` (src/pulse.py
line 88), which doubles as the heap since every pulse is appended to it
by `Pulse.__init__` (line 109). -/
structure PulseState where
  pulse_list : List PulseObj
deriving DecidableEq, Repr

/-- The empty registry at process start. -/
def initState : PulseState := ⟨[]⟩

/-- Body of `Pulse.__init__` (src/pulse.py lines 101-108): store the six
arguments verbatim, derive `sigma = duration / 4 if duration else 0`, and
take a fresh id (modelling `uuid.uuid4()`). -/
def Pulse.init (frequency x_amp sx_amp beta_dephase beta_leakage : ℚ)
    (duration : ℤ) (id : ℕ) : PulseCore :=
  { frequency := frequency
    x_amp := x_amp
    sx_amp := sx_amp
    beta_leakage := beta_leakage
    beta_dephase := beta_dephase
    duration := duration
    sigma := if duration ≠ 0 then (duration : ℚ) / 4 else 0
    id := id }

/-- In-place update of one heap cell, used to model Python attribute
assignment through an object reference. -/
def modifyAt {α : Type} (l : List α) (i : ℕ) (f : α → α) : List α :=
  match l[i]? with
  | some a => l.set i (f a)
  | none => l

/-- The attribute assignment `self.pulse01.pulse12 = self` performed by
`Pulse12.__init__` (src/pulse.py line 190): on a `Pulse01` it overwrites
the `pulse12` reference; on a `Pulse12` the scalar fields and the
`pulse01` reference it declares are untouched. -/
def PulseObj.setPulse12 (o : PulseObj) (r : ℕ) : PulseObj :=
  match o.kind with
  | .p01 _ => { o with kind := .p01 (some r) }
  | .p12 _ => o

/-- `Pulse01.__init__` (src/pulse.py lines 120-135): run `Pulse.__init__`
(which appends the new object to `Pulse.pulse_list`), then set the
optional `pulse12` reference from the argument. -/
def PulseState.constructPulse01 (s : PulseState)
    (frequency x_amp sx_amp beta_dephase beta_leakage : ℚ) (duration : ℤ)
    (pulse12 : Option ℕ) : PulseState :=
  ⟨s.pulse_list ++
    [⟨Pulse.init frequency x_amp sx_amp beta_dephase beta_leakage duration
        s.pulse_list.length, .p01 pulse12⟩]⟩

/-- `Pulse12.__init__` (src/pulse.py lines 174-190): run `Pulse.__init__`
(appending the new object), store the `pulse01` reference, then mutate the
referenced partner with `self.pulse01.pulse12 = self`. -/
def PulseState.constructPulse12 (s : PulseState) (pulse01 : ℕ)
    (frequency x_amp sx_amp beta_dephase beta_leakage : ℚ)
    (duration : ℤ) : PulseState :=
  ⟨modifyAt
    (s.pulse_list ++
      [⟨Pulse.init frequency x_amp sx_amp beta_dephase beta_leakage duration
          s.pulse_list.length, .p12 pulse01⟩])
    pulse01 (fun o => o.setPulse12 s.pulse_list.length)⟩

/-- `TR01.modify_pulse_model` / `TR12.modify_pulse_model`
(src/calibration/transmission_reflection.py lines 256-262 and 328-338):
overwrite the frequency of the held pulse model with the analyzed value. -/
def PulseState.modify_pulse_model (s : PulseState) (r : ℕ)
    (newFrequency : ℚ) : PulseState :=
  ⟨modifyAt s.pulse_list r
    (fun o => { o with core := { o.core with frequency := newFrequency } })⟩

/-- One pulse construction: either `Pulse01(...)` with its optional
`pulse12` argument, or `Pulse12(pulse01, ...)`. -/
inductive PulseOp where
  | mk01 (frequency x_amp sx_amp beta_dephase beta_leakage : ℚ)
      (duration : ℤ) (pulse12 : Option ℕ)
  | mk12 (pulse01 : ℕ) (frequency x_amp sx_amp beta_dephase beta_leakage : ℚ)
      (duration : ℤ)
deriving DecidableEq, Repr

/-- Execute one construction on the process state. -/
def PulseState.apply (s : PulseState) : PulseOp → PulseState
  | .mk01 f x sx bd bl d p12 => s.constructPulse01 f x sx bd bl d p12
  | .mk12 p01 f x sx bd bl d => s.constructPulse12 p01 f x sx bd bl d

/-- Execute a sequence of constructions in order. -/
def PulseState.run (s : PulseState) : List PulseOp → PulseState
  | [] => s
  | op :: ops => (s.apply op).run ops

/-- The x_amp argument of a construction. -/
def PulseOp.xAmp : PulseOp → ℚ
  | .mk01 _ x _ _ _ _ _ => x
  | .mk12 _ _ x _ _ _ _ => x

/-- The duration argument of a construction. -/
def PulseOp.dur : PulseOp → ℤ
  | .mk01 _ _ _ _ _ d _ => d
  | .mk12 _ _ _ _ _ _ d => d

/-- The frequency argument of a construction. -/
def PulseOp.frequencyArg : PulseOp → ℚ
  | .mk01 f _ _ _ _ _ _ => f
  | .mk12 _ f _ _ _ _ _ => f

/-- The sx_amp argument of a construction. -/
def PulseOp.sxAmp : PulseOp → ℚ
  | .mk01 _ _ sx _ _ _ _ => sx
  | .mk12 _ _ _ sx _ _ _ => sx

/-- The beta_dephase argument of a construction. -/
def PulseOp.betaDephaseArg : PulseOp → ℚ
  | .mk01 _ _ _ bd _ _ _ => bd
  | .mk12 _ _ _ _ bd _ _ => bd

/-- The beta_leakage argument of a construction. -/
def PulseOp.betaLeakageArg : PulseOp → ℚ
  | .mk01 _ _ _ _ bl _ _ => bl
  | .mk12 _ _ _ _ _ bl _ => bl

/-- A `PulseKind` of the `Pulse01` class. -/
def PulseKind.is01 : PulseKind → Bool
  | .p01 _ => true
  | .p12 _ => false

/-- A reference that points to a constructed `Pulse01`, as the type
annotation `pulse01: Pulse01` of `Pulse12.__init__` requires. -/
def PulseState.validRef01 (s : PulseState) (r : ℕ) : Bool :=
  match s.pulse_list[r]? with
  | some p => p.kind.is01
  | none => false

/-- A reference that points to a constructed `Pulse12`, as the type
annotation `pulse12: Pulse12` of `Pulse01.__init__` requires. -/
def PulseState.validRef12 (s : PulseState) (r : ℕ) : Bool :=
  match s.pulse_list[r]? with
  | some p => !p.kind.is01
  | none => false

/-- A construction whose reference arguments satisfy the declared
parameter types in the given state. -/
def opOk (s : PulseState) : PulseOp → Bool
  | .mk01 _ _ _ _ _ _ none => true
  | .mk01 _ _ _ _ _ _ (some r) => s.validRef12 r
  | .mk12 r _ _ _ _ _ _ => s.validRef01 r

/-- A construction sequence each of whose steps is well-typed in the
state it runs in. -/
def opsOk (s : PulseState) : List PulseOp → Bool
  | [] => true
  | op :: ops => opOk s op && opsOk (s.apply op) ops

/-- A `Pulse01` construction that leaves the `pulse12` argument at its
default `None` (partner links are then made only by `Pulse12.__init__`). -/
def PulseOp.noExplicitPartner : PulseOp → Bool
  | .mk01 _ _ _ _ _ _ none => true
  | .mk01 _ _ _ _ _ _ (some _) => false
  | .mk12 _ _ _ _ _ _ _ => true

/-- Every `Pulse12` in the state references a constructed `Pulse01`:
its `pulse01` is non-null and of the right class. -/
def pulse01NonNull (s : PulseState) : Prop :=
  ∀ (i : ℕ) (p : PulseObj) (j : ℕ), s.pulse_list[i]? = some p → p.kind = .p12 j →
    ∃ q, s.pulse_list[j]? = some q ∧ q.kind.is01 = true

/-- Forward partner consistency: whenever a `Pulse01` A references a
partner B through `A.pulse12`, that B is a `Pulse12` whose `pulse01`
references A back. -/
def partner01Consistent (s : PulseState) : Prop :=
  ∀ (i : ℕ) (p : PulseObj) (j : ℕ), s.pulse_list[i]? = some p → p.kind = .p01 (some j) →
    ∃ q, s.pulse_list[j]? = some q ∧ q.kind = .p12 i

/-- Reverse partner consistency: whenever a `Pulse12` B references A
through `B.pulse01`, that A is a `Pulse01` whose `pulse12` references B
back. -/
def partner12Consistent (s : PulseState) : Prop :=
  ∀ (i : ℕ) (p : PulseObj) (j : ℕ), s.pulse_list[i]? = some p → p.kind = .p12 j →
    ∃ q, s.pulse_list[j]? = some q ∧ q.kind = .p01 (some i)

/-- Column store built by `Pulse_List.pulse_dictionary` (src/pulse.py
lines 16-51): one list per column of the exported table. -/
structure PulseDict where
  pulse_id : List ℕ
  mode : List (Option String)
  duration : List ℤ
  frequency : List ℚ
  x_amp : List ℚ
  sx_amp : List ℚ
  beta_dephase : List ℚ
  beta_leakage : List ℚ
  sigma : List ℚ
  pulse_pointer : List (Option ℕ)
deriving DecidableEq, Repr

/-- The initial `dict_pulses` of `pulse_dictionary`: every column empty. -/
def emptyDict : PulseDict :=
  ⟨[], [], [], [], [], [], [], [], [], []⟩

/-- One iteration of the loop of `pulse_dictionary` (src/pulse.py lines
29-49): append the pulse's id, its mode and partner pointer according to
its class, and its scalar fields, one entry per column.  The partner
pointer of a `Pulse01` is `pulse.pulse12.id if pulse.pulse12 else None`;
for a `Pulse12` it is `pulse.pulse01.id`; dereferencing goes through the
heap. -/
def addRow (s : PulseState) (d : PulseDict) (o : PulseObj) : PulseDict :=
  { pulse_id := d.pulse_id ++ [o.core.id]
    mode := d.mode ++
      [match o.kind with
        | .p01 _ => some "01"
        | .p12 _ => some "12"]
    pulse_pointer := d.pulse_pointer ++
      [match o.kind with
        | .p01 none => none
        | .p01 (some r) => (s.pulse_list[r]?).map (fun q => q.core.id)
        | .p12 r => (s.pulse_list[r]?).map (fun q => q.core.id)]
    duration := d.duration ++ [o.core.duration]
    frequency := d.frequency ++ [o.core.frequency]
    x_amp := d.x_amp ++ [o.core.x_amp]
    sx_amp := d.sx_amp ++ [o.core.sx_amp]
    beta_dephase := d.beta_dephase ++ [o.core.beta_dephase]
    beta_leakage := d.beta_leakage ++ [o.core.beta_leakage]
    sigma := d.sigma ++ [o.core.sigma] }

/-- `Pulse_List.pulse_dictionary` (src/pulse.py lines 16-51): start from
empty columns and run the loop over the pulses of the list. -/
def pulse_dictionary (s : PulseState) (pulses : List PulseObj) : PulseDict :=
  pulses.foldl (addRow s) emptyDict

/-- The six-field comparison shared by `Pulse01.__eq__` (src/pulse.py
lines 153-161) and the first six conjuncts of `Pulse12.__eq__` (lines
208-216): frequency, x_amp, sx_amp, beta_leakage, beta_dephase, duration. -/
def fieldsEq (a b : PulseCore) : Bool :=
  a.frequency == b.frequency
    && a.x_amp == b.x_amp
    && a.sx_amp == b.sx_amp
    && a.beta_leakage == b.beta_leakage
    && a.beta_dephase == b.beta_dephase
    && a.duration == b.duration

/-- `Pulse01.__eq__` (src/pulse.py lines 153-161): compare the six scalar
fields only. -/
def pulse01_eq (a b : PulseObj) : Bool :=
  fieldsEq a.core b.core

/-- The `pulse01` partner object of a `Pulse12`, read through the heap. -/
def partnerObj (s : PulseState) (o : PulseObj) : Option PulseObj :=
  match o.kind with
  | .p12 r => s.pulse_list[r]?
  | .p01 _ => none

/-- `Pulse12.__eq__` (src/pulse.py lines 208-217): compare the six scalar
fields and then `self.pulse01 == other.pulse01`, which invokes
`Pulse01.__eq__` on the two partner objects. -/
def pulse12_eq (s : PulseState) (a b : PulseObj) : Bool :=
  fieldsEq a.core b.core
    && (match partnerObj s a, partnerObj s b with
        | some p, some q => pulse01_eq p q
        | _, _ => false)

/-- Result of a successful `Pulse_List.save_pulses` call: which file was
written, its name with extension, and its content.  The csv branch
formats the mode column with the pattern string of src/pulse.py line 69,
wrapping each mode in an Excel-style quoted formula. -/
inductive SavedFile where
  | csv (file_name : String) (d : PulseDict) (formatted_mode : List String)
  | json (file_name : String) (d : PulseDict)
deriving DecidableEq, Repr

/-- The csv mode formatting applied on src/pulse.py line 69: Python
renders `None` as the string "None". -/
def fmtMode (m : Option String) : String :=
  "=\"" ++ (match m with | some v => v | none => "None") ++ "\""

/-- `Pulse_List.save_pulses` (src/pulse.py lines 53-80): build the
dictionary, then dispatch on `saved_type`; "csv" and "json" write a file,
anything else raises `IOError("Unsupported type!")` with nothing
written. -/
def save_pulses (d : PulseDict) (saved_type file_name : String) :
    Except String SavedFile :=
  if saved_type = "csv" then
    .ok (.csv (file_name ++ ".csv") d (d.mode.map fmtMode))
  else if saved_type = "json" then
    .ok (.json (file_name ++ ".json") d)
  else
    .error "Unsupported type!"

/-- The registry ids in order, which identify the registry entries: ids
are never rewritten, so this sequence records which objects sit where. -/
def ids (s : PulseState) : List ℕ :=
  s.pulse_list.map (fun o => o.core.id)

/-- Construction sequence of the mutual-consistency counterexample: one
`Pulse01`, then two `Pulse12` objects over it with durations 1 and 2 —
the second `Pulse12.__init__` re-points the shared partner. -/
def twoPartnerOps : List PulseOp :=
  [PulseOp.mk01 0 0 0 0 0 0 none,
   PulseOp.mk12 0 0 0 0 0 0 1,
   PulseOp.mk12 0 0 0 0 0 0 2]

/-- Construction sequence of a well-linked pair: one `Pulse01` and one
`Pulse12` over it, with no explicit `pulse12` argument anywhere. -/
def pairOps : List PulseOp :=
  [PulseOp.mk01 3 1 0 0 0 144 none,
   PulseOp.mk12 0 5 1 0 0 0 144]

end QutritPulse

namespace QutritDecompose

/-!
The Unitary Decomposer (spec section 4.1).  Its implementation is not
among the sources under src/ — only callers appear there
(src/decomposition/decompose_main.py, src/algo_implementation.py invoke
`pulse_wrap.decompose()`), so the component is modelled from the spec:
a two-level (Givens-like) elimination that zeroes the couplings of level
2 with levels 0 and 1 using 01/12-subspace rotations, reduces the input
to a diagonal phase matrix, and expresses the residual diagonal as
subspace-local Z-rotations plus one irreducible global phase, with
below-tolerance rotations dropped.  The numerical tolerance is idealized
to 0: matrices are exact complex matrices and the unitarity check and
the reconstruction are exact.
-/

/-- A 3×3 complex matrix, the decomposer's input type. -/
abbrev M3 : Type := Matrix (Fin 3) (Fin 3) ℂ

/-- Modelled from the spec: the two-level subspace a rotation acts in. -/
inductive Subspace where
  | s01
  | s12
deriving DecidableEq, Repr

/-- Modelled from the spec: the rotation axis of an elementary rotation. -/
inductive Axis where
  | y
  | z
deriving DecidableEq, Repr

/-- Modelled from the spec: one elementary rotation of the decomposer's
output: subspace, axis, angle. -/
structure ElemRot where
  sub : Subspace
  axis : Axis
  angle : ℝ

/-- The standard Y-rotation by θ on a two-level subspace. -/
noncomputable def rotY (θ : ℝ) : Matrix (Fin 2) (Fin 2) ℂ :=
  !![(Real.cos (θ / 2) : ℂ), -(Real.sin (θ / 2) : ℂ);
     (Real.sin (θ / 2) : ℂ), (Real.cos (θ / 2) : ℂ)]

/-- The standard Z-rotation by θ on a two-level subspace. -/
noncomputable def rotZ (θ : ℝ) : Matrix (Fin 2) (Fin 2) ℂ :=
  !![Complex.exp (-(θ / 2) * Complex.I), 0;
     0, Complex.exp ((θ / 2) * Complex.I)]

/-- Embedding of a 2×2 block into levels 0,1 of the qutrit space. -/
def embed01 (g : Matrix (Fin 2) (Fin 2) ℂ) : M3 :=
  !![g 0 0, g 0 1, 0;
     g 1 0, g 1 1, 0;
     0, 0, 1]

/-- Embedding of a 2×2 block into levels 1,2 of the qutrit space. -/
def embed12 (g : Matrix (Fin 2) (Fin 2) ℂ) : M3 :=
  !![1, 0, 0;
     0, g 0 0, g 0 1;
     0, g 1 0, g 1 1]

/-- Embedding selected by subspace. -/
def Subspace.embed : Subspace → Matrix (Fin 2) (Fin 2) ℂ → M3
  | .s01 => embed01
  | .s12 => embed12

/-- The 3×3 matrix of one elementary rotation. -/
noncomputable def ElemRot.matrix (e : ElemRot) : M3 :=
  e.sub.embed (match e.axis with
    | .y => rotY e.angle
    | .z => rotZ e.angle)

/-- Ordered product of the matrices of a rotation list. -/
noncomputable def rotListProd (l : List ElemRot) : M3 :=
  (l.map ElemRot.matrix).prod

/-- Norm of the two-entry column a Givens step eliminates. -/
noncomputable def gvR (a b : ℂ) : ℝ :=
  Real.sqrt (Complex.normSq a + Complex.normSq b)

/-- Modelled from the spec: the Givens-like elimination block sending the
column (a, b) to (r, 0) with r = gvR a b; the identity when the column
vanishes. -/
noncomputable def gv (a b : ℂ) : Matrix (Fin 2) (Fin 2) ℂ :=
  if gvR a b = 0 then 1
  else ((gvR a b : ℂ))⁻¹ • !![star a, star b; -b, a]

/-- Y-angle of the ZYZ realization of a Givens block. -/
noncomputable def zyzTheta (a b : ℂ) : ℝ :=
  2 * Real.arccos (Complex.abs a / gvR a b)

/-- First Z-angle of the ZYZ realization of a Givens block. -/
noncomputable def zyzAlpha (a b : ℂ) : ℝ :=
  Complex.arg a + Complex.arg b + Real.pi

/-- Second Z-angle of the ZYZ realization of a Givens block. -/
noncomputable def zyzBeta (a b : ℂ) : ℝ :=
  Complex.arg a - Complex.arg b - Real.pi

/-- Modelled from the spec: the elementary rotations emitted for one
elimination step — the ZYZ realization of the inverse Givens block, or
nothing when the block is the identity (the spec drops below-tolerance
rotations instead of emitting no-ops). -/
noncomputable def stepRots (sub : Subspace) (a b : ℂ) : List ElemRot :=
  if gvR a b = 0 ∨ (b = 0 ∧ a = (gvR a b : ℂ)) then []
  else [⟨sub, .z, -(zyzBeta a b)⟩, ⟨sub, .y, -(zyzTheta a b)⟩,
    ⟨sub, .z, -(zyzAlpha a b)⟩]

/-- First elimination block: a 12-subspace rotation zeroing the coupling
of level 2 with column 0. -/
noncomputable def g1 (U : M3) : M3 := embed12 (gv (U 1 0) (U 2 0))

/-- State after the first elimination step. -/
noncomputable def m1 (U : M3) : M3 := g1 U * U

/-- Second elimination block: a 01-subspace rotation zeroing the coupling
of level 1 with column 0. -/
noncomputable def g2 (U : M3) : M3 := embed01 (gv (m1 U 0 0) (m1 U 1 0))

/-- State after the second elimination step. -/
noncomputable def m2 (U : M3) : M3 := g2 U * m1 U

/-- Third elimination block: a 12-subspace rotation zeroing the coupling
of level 2 with column 1. -/
noncomputable def g3 (U : M3) : M3 := embed12 (gv (m2 U 1 1) (m2 U 2 1))

/-- State after the third elimination step: for unitary input, a diagonal
phase matrix. -/
noncomputable def m3 (U : M3) : M3 := g3 U * m2 U

/-- Modelled from the spec: the residual scalar global phase φ. -/
noncomputable def phi (U : M3) : ℝ :=
  (Complex.arg (m3 U 0 0) + Complex.arg (m3 U 1 1) +
    Complex.arg (m3 U 2 2)) / 3

/-- Angle of the residual 01-subspace Z-rotation. -/
noncomputable def thZ (U : M3) : ℝ := 2 * (phi U - Complex.arg (m3 U 0 0))

/-- Angle of the residual 12-subspace Z-rotation. -/
noncomputable def laZ (U : M3) : ℝ := 2 * (Complex.arg (m3 U 2 2) - phi U)

/-- Modelled from the spec: the subspace-local Z-rotations expressing the
residual diagonal, zero angles dropped. -/
noncomputable def diagRots (U : M3) : List ElemRot :=
  (if thZ U = 0 then [] else [⟨.s01, .z, thZ U⟩]) ++
    (if laZ U = 0 then [] else [⟨.s12, .z, laZ U⟩])

/-- Modelled from the spec: the decomposer's ordered output rotations. -/
noncomputable def decomposeRots (U : M3) : List ElemRot :=
  stepRots .s12 (U 1 0) (U 2 0) ++ stepRots .s01 (m1 U 0 0) (m1 U 1 0) ++
    stepRots .s12 (m2 U 1 1) (m2 U 2 1) ++ diagRots U

/-- Modelled from the spec: the decomposer's residual global phase. -/
noncomputable def globalPhase (U : M3) : ℝ := phi U

/-- The unitarity acceptance check of the decomposer, with the numerical
tolerance idealized to zero. -/
def unitaryCheck (U : M3) : Prop := U.conjTranspose * U = 1

end QutritDecompose

namespace QutritPulse

/-!  Helper lemmas about the heap update and the construction step. -/

theorem modifyAt_getElem?_ne {α : Type} (l : List α) (i : ℕ) (f : α → α)
    (j : ℕ) (hne : i ≠ j) : (modifyAt l i f)[j]? = l[j]? := by
  unfold modifyAt
  cases h : l[i]?
  · rfl
  · exact List.getElem?_set_ne hne

theorem modifyAt_getElem?_self {α : Type} (l : List α) (i : ℕ) (f : α → α)
    (a : α) (h : l[i]? = some a) : (modifyAt l i f)[i]? = some (f a) := by
  obtain ⟨hlt, -⟩ := List.getElem?_eq_some.mp h
  unfold modifyAt
  rw [h]
  exact List.getElem?_set_self hlt

theorem set_getElem?_self {α : Type} (l : List α) (i : ℕ) (a : α)
    (h : l[i]? = some a) : l.set i a = l := by
  obtain ⟨hlt, -⟩ := List.getElem?_eq_some.mp h
  apply List.ext_getElem?
  intro j
  by_cases hj : i = j
  · subst hj
    rw [List.getElem?_set_self hlt, h]
  · rw [List.getElem?_set_ne hj]

theorem modifyAt_map {α β : Type} (l : List α) (i : ℕ) (f : α → α)
    (g : α → β) (hg : ∀ a, g (f a) = g a) :
    (modifyAt l i f).map g = l.map g := by
  unfold modifyAt
  cases h : l[i]?
  · rfl
  · rw [List.map_set, hg]
    exact set_getElem?_self _ _ _ (by rw [List.getElem?_map, h]; rfl)

theorem setPulse12_core (o : PulseObj) (r : ℕ) :
    (o.setPulse12 r).core = o.core := by
  unfold PulseObj.setPulse12
  cases h : o.kind <;> rfl

theorem setPulse12_is01 (o : PulseObj) (r : ℕ) :
    (o.setPulse12 r).kind.is01 = o.kind.is01 := by
  unfold PulseObj.setPulse12
  cases h : o.kind <;> simp [h, PulseKind.is01]

theorem apply_ids (s : PulseState) (op : PulseOp) :
    ids (s.apply op) = ids s ++ [s.pulse_list.length] := by
  cases op with
  | mk01 f x sx bd bl d p12 =>
      simp [ids, PulseState.apply, PulseState.constructPulse01, Pulse.init]
  | mk12 r f x sx bd bl d =>
      unfold ids PulseState.apply PulseState.constructPulse12
      rw [modifyAt_map _ _ _ _ (fun a => by rw [setPulse12_core])]
      simp [Pulse.init]

theorem apply_length (s : PulseState) (op : PulseOp) :
    (s.apply op).pulse_list.length = s.pulse_list.length + 1 := by
  have h := congrArg List.length (apply_ids s op)
  simpa [ids] using h

theorem run_ids (s : PulseState) (ops : List PulseOp) :
    ids (s.run ops) = ids s ++ List.range' s.pulse_list.length ops.length := by
  induction ops generalizing s with
  | nil => simp [PulseState.run, ids]
  | cons op ops ih =>
      rw [PulseState.run, ih, apply_ids, apply_length]
      simp [List.range'_succ]

theorem new_entry_core (s : PulseState) (op : PulseOp) :
    ∃ p12arg : PulseKind,
      (s.apply op).pulse_list[s.pulse_list.length]? =
        some ⟨Pulse.init op.frequencyArg op.xAmp op.sxAmp op.betaDephaseArg
          op.betaLeakageArg op.dur s.pulse_list.length, p12arg⟩ := by
  cases op with
  | mk01 f x sx bd bl d p12 =>
      exact ⟨.p01 p12, by
        simp [PulseState.apply, PulseState.constructPulse01, PulseOp.xAmp,
          PulseOp.dur, PulseOp.frequencyArg, PulseOp.sxAmp,
          PulseOp.betaDephaseArg, PulseOp.betaLeakageArg]⟩
  | mk12 r f x sx bd bl d =>
      refine ⟨.p12 r, ?_⟩
      unfold PulseState.apply PulseState.constructPulse12
      have hbase :
          (s.pulse_list ++
            [(⟨Pulse.init f x sx bd bl d s.pulse_list.length, .p12 r⟩ :
              PulseObj)])[s.pulse_list.length]? =
            some ⟨Pulse.init f x sx bd bl d s.pulse_list.length, .p12 r⟩ := by
        simp
      by_cases hr : r = s.pulse_list.length
      · subst hr
        rw [modifyAt_getElem?_self _ _ _ _ hbase]
        simp [PulseObj.setPulse12, PulseOp.xAmp, PulseOp.dur,
          PulseOp.frequencyArg, PulseOp.sxAmp, PulseOp.betaDephaseArg,
          PulseOp.betaLeakageArg]
      · rw [modifyAt_getElem?_ne _ _ _ _ hr, hbase]
        simp [PulseOp.xAmp, PulseOp.dur, PulseOp.frequencyArg, PulseOp.sxAmp,
          PulseOp.betaDephaseArg, PulseOp.betaLeakageArg]

/-- C6: the registry `Pulse.pulse_list` is append-only: a construction
sequence grows it by exactly one entry per construction, each new entry at
the end, and the ids of the pre-existing entries are untouched in their
order, so after n constructions the registry holds those n pulses in
construction order. -/
theorem registry_append_only (s : PulseState) (ops : List PulseOp) :
    (s.run ops).pulse_list.length = s.pulse_list.length + ops.length ∧
    ids (s.run ops) = ids s ++ List.range' s.pulse_list.length ops.length ∧
    ∀ op : PulseOp, ids (s.apply op) = ids s ++ [s.pulse_list.length] := by
  refine ⟨?_, run_ids s ops, fun op => apply_ids s op⟩
  have h := congrArg List.length (run_ids s ops)
  simpa [ids] using h

/-- C8: any two pulses at distinct registry positions have distinct ids:
the identity assigned at construction (uuid4, modelled as fresh) is unique
across the registry. -/
theorem pulse_ids_pairwise_distinct (ops : List PulseOp) :
    ((initState.run ops).pulse_list.map (fun o => o.core.id)).Pairwise
      (fun a b => a ≠ b) := by
  have h2 : (initState.run ops).pulse_list.map (fun o => o.core.id) =
      List.range' 0 ops.length := by
    simpa [ids, initState] using run_ids initState ops
  rw [h2]
  exact (List.pairwise_lt_range' 0 ops.length).imp (fun h => Nat.ne_of_lt h)

/-- C4: a pulse constructed with duration d has sigma = d / 4 for every
integer d ≥ 0 (in particular sigma = 0 when d = 0, where the code's
truthiness test takes the `else 0` branch). -/
theorem sigma_quarter_duration (s : PulseState) (op : PulseOp)
    (hd : 0 ≤ op.dur) :
    ((s.apply op).pulse_list[s.pulse_list.length]?).map (fun o => o.core.sigma)
      = some ((op.dur : ℚ) / 4) := by
  obtain ⟨k, hk⟩ := new_entry_core s op
  rw [hk]
  rcases eq_or_ne op.dur 0 with h0 | h0
  · simp [Pulse.init, h0]
  · simp [Pulse.init, h0]

/-- Witness for C4 at a concrete construction of duration 8. -/
theorem sigma_quarter_duration_witness :
    (((initState.apply (PulseOp.mk01 0 0 0 0 0 8 none)).pulse_list[(0 : ℕ)]?).map
      (fun o => o.core.sigma)) = some 2 := by
  have h := sigma_quarter_duration initState (PulseOp.mk01 0 0 0 0 0 8 none)
    (by decide)
  have h2 : ((initState.apply (PulseOp.mk01 0 0 0 0 0 8 none)).pulse_list[(0 : ℕ)]?).map
      (fun o => o.core.sigma) = some (((8 : ℤ) : ℚ) / 4) := h
  rw [h2]
  norm_num

/-- C5 (amended): construction performs no validation: the x_amp and
duration arguments are stored verbatim, so the bounds |x_amp| ≤ 1 and
duration ≥ 0 hold for a constructed pulse exactly when the caller's
arguments already satisfied them. -/
theorem pulse_args_stored_verbatim (s : PulseState) (op : PulseOp) :
    ((s.apply op).pulse_list[s.pulse_list.length]?).map
      (fun o => (o.core.x_amp, o.core.duration)) = some (op.xAmp, op.dur) := by
  obtain ⟨k, hk⟩ := new_entry_core s op
  rw [hk]
  simp [Pulse.init]

/-- C5 counterexample: `Pulse01(x_amp=2, duration=-1)` is accepted and the
constructed pulse violates both bounds. -/
theorem pulse_bounds_counterexample :
    ¬ (∀ (i : ℕ) (o : PulseObj),
        (initState.apply (PulseOp.mk01 0 2 0 0 0 (-1) none)).pulse_list[i]? =
          some o →
        |o.core.x_amp| ≤ 1 ∧ 0 ≤ o.core.duration) := by
  intro h
  have h0 := h 0 ⟨⟨0, 2, 0, 0, 0, -1, -1 / 4, 0⟩, .p01 none⟩ (by rfl)
  rcases h0 with ⟨h1, -⟩
  norm_num at h1

/-- C2 (amended): constructions never change any scalar field (frequency,
x_amp, sx_amp, betas, duration, sigma, id) of an existing pulse — of an
existing object only the `pulse12` reference of the `Pulse01` handed to
`Pulse12.__init__` can change; and the calibration flow's
`modify_pulse_model` leaves every other object alone but overwrites the
frequency (and only the frequency) of its target pulse. -/
theorem pulse_core_frame :
    (∀ (s : PulseState) (op : PulseOp) (i : ℕ), i < s.pulse_list.length →
      ((s.apply op).pulse_list[i]?).map (fun o => o.core) =
        (s.pulse_list[i]?).map (fun o => o.core)) ∧
    (∀ (s : PulseState) (r : ℕ) (nf : ℚ) (i : ℕ), i ≠ r →
      (s.modify_pulse_model r nf).pulse_list[i]? = s.pulse_list[i]?) ∧
    (∀ (s : PulseState) (r : ℕ) (nf : ℚ) (o : PulseObj),
      s.pulse_list[r]? = some o →
      (s.modify_pulse_model r nf).pulse_list[r]? =
        some ⟨{ o.core with frequency := nf }, o.kind⟩) := by
  refine ⟨?_, ?_, ?_⟩
  · intro s op i hi
    cases op with
    | mk01 f x sx bd bl d p12 =>
        simp [PulseState.apply, PulseState.constructPulse01,
          List.getElem?_append, hi]
    | mk12 r f x sx bd bl d =>
        unfold PulseState.apply PulseState.constructPulse12
        by_cases hir : r = i
        · subst hir
          have hbase :
              (s.pulse_list ++
                [(⟨Pulse.init f x sx bd bl d s.pulse_list.length, .p12 r⟩ :
                  PulseObj)])[r]? = s.pulse_list[r]? := by
            simp [List.getElem?_append, hi]
          obtain ⟨o, ho⟩ : ∃ o, s.pulse_list[r]? = some o :=
            ⟨_, List.getElem?_eq_getElem hi⟩
          rw [modifyAt_getElem?_self _ _ _ _ (hbase.trans ho), ho]
          simp [setPulse12_core]
        · rw [modifyAt_getElem?_ne _ _ _ _ hir]
          simp [List.getElem?_append, hi]
  · intro s r nf i hi
    exact modifyAt_getElem?_ne _ _ _ _ (Ne.symm hi)
  · intro s r nf o ho
    exact modifyAt_getElem?_self _ _ _ _ ho

/-- Witness for C2 (amended) at a concrete two-pulse state. -/
theorem pulse_core_frame_witness :
    ((((initState.apply (PulseOp.mk01 3 1 0 0 0 144 none)).apply
        (PulseOp.mk12 0 5 1 0 0 0 144)).pulse_list[(0 : ℕ)]?).map
      (fun o => o.core) =
      (((initState.apply (PulseOp.mk01 3 1 0 0 0 144 none)).pulse_list[(0 : ℕ)]?).map
        (fun o => o.core))) ∧
    ((initState.apply (PulseOp.mk01 3 1 0 0 0 144 none)).modify_pulse_model 5 9).pulse_list[(0 : ℕ)]? =
      (initState.apply (PulseOp.mk01 3 1 0 0 0 144 none)).pulse_list[(0 : ℕ)]? ∧
    ((initState.apply (PulseOp.mk01 3 1 0 0 0 144 none)).modify_pulse_model 0 9).pulse_list[(0 : ℕ)]? =
      some ⟨⟨9, 1, 0, 0, 0, 144, ((144 : ℤ) : ℚ) / 4, 0⟩, .p01 none⟩ := by
  refine ⟨pulse_core_frame.1 _ (PulseOp.mk12 0 5 1 0 0 0 144) 0 (by decide),
    pulse_core_frame.2.1 _ 5 9 0 (by decide), ?_⟩
  have h := pulse_core_frame.2.2
    (initState.apply (PulseOp.mk01 3 1 0 0 0 144 none)) 0 9
    ⟨⟨3, 1, 0, 0, 0, 144, ((144 : ℤ) : ℚ) / 4, 0⟩, .p01 none⟩ (by rfl)
  exact h

/-- C2 counterexample: `modify_pulse_model` of the calibration flow
mutates an existing pulse: the frequency reads 7 before and 9 after. -/
theorem calibration_mutates_frequency :
    (((initState.apply (PulseOp.mk01 7 0 0 0 0 0 none)).pulse_list[(0 : ℕ)]?).map
      (fun o => o.core.frequency) = some 7) ∧
    ((((initState.apply (PulseOp.mk01 7 0 0 0 0 0 none)).modify_pulse_model 0
        9).pulse_list[(0 : ℕ)]?).map
      (fun o => o.core.frequency) = some 9) := by
  exact ⟨rfl, rfl⟩

theorem getElem?_concat_cases {α : Type} (l : List α) (b : α) (i : ℕ)
    (p : α) (h : (l ++ [b])[i]? = some p) :
    (i < l.length ∧ l[i]? = some p) ∨ (i = l.length ∧ p = b) := by
  rcases Nat.lt_or_ge i l.length with hi | hi
  · left
    refine ⟨hi, ?_⟩
    rw [← h, List.getElem?_append]
    simp [hi]
  · right
    rw [List.getElem?_append_right hi] at h
    cases hm : i - l.length with
    | zero =>
        rw [hm] at h
        simp only [List.getElem?_cons_zero] at h
        exact ⟨by omega, (Option.some.inj h).symm⟩
    | succ k =>
        rw [hm] at h
        simp at h

theorem getElem?_lt_len {α : Type} (l : List α) (i : ℕ) (p : α)
    (h : l[i]? = some p) : i < l.length := by
  obtain ⟨hlt, -⟩ := List.getElem?_eq_some.mp h
  exact hlt

theorem getElem?_append_left_eq {α : Type} (l : List α) (b : α) (i : ℕ)
    (hi : i < l.length) : (l ++ [b])[i]? = l[i]? := by
  rw [List.getElem?_append]
  simp [hi]

theorem validRef01_spec (s : PulseState) (r : ℕ)
    (h : s.validRef01 r = true) :
    ∃ a w, s.pulse_list[r]? = some a ∧ a.kind = .p01 w := by
  unfold PulseState.validRef01 at h
  cases hr : s.pulse_list[r]? with
  | none => rw [hr] at h; simp at h
  | some a =>
      rw [hr] at h
      change a.kind.is01 = true at h
      cases hk : a.kind with
      | p01 w => exact ⟨a, w, rfl, hk⟩
      | p12 w => rw [hk] at h; simp [PulseKind.is01] at h

theorem is01_of_p01 (w : Option ℕ) : (PulseKind.p01 w).is01 = true := rfl

theorem setPulse12_of_p01 (o : PulseObj) (w : Option ℕ) (n : ℕ)
    (h : o.kind = .p01 w) :
    o.setPulse12 n = { o with kind := .p01 (some n) } := by
  unfold PulseObj.setPulse12
  rw [h]

/-- Preservation of the partner invariants by one well-typed construction
with no explicit `pulse12` argument. -/
theorem apply_partner_inv (s : PulseState) (op : PulseOp)
    (hok : opOk s op = true) (hnp : op.noExplicitPartner = true)
    (h1 : pulse01NonNull s) (h2 : partner01Consistent s) :
    pulse01NonNull (s.apply op) ∧ partner01Consistent (s.apply op) := by
  cases op with
  | mk01 f x sx bd bl d p12 =>
      cases p12 with
      | some r => simp [PulseOp.noExplicitPartner] at hnp
      | none =>
          have happly : (s.apply (.mk01 f x sx bd bl d none)).pulse_list =
              s.pulse_list ++
                [⟨Pulse.init f x sx bd bl d s.pulse_list.length,
                  .p01 none⟩] := rfl
          constructor
          · intro i p j hp hk
            rw [happly] at hp
            rcases getElem?_concat_cases _ _ _ _ hp with ⟨hi, hold⟩ | ⟨hi, hpb⟩
            · obtain ⟨q, hq, hq01⟩ := h1 i p j hold hk
              refine ⟨q, ?_, hq01⟩
              rw [happly,
                getElem?_append_left_eq _ _ _ (getElem?_lt_len _ _ _ hq)]
              exact hq
            · rw [hpb] at hk
              simp at hk
          · intro i p j hp hk
            rw [happly] at hp
            rcases getElem?_concat_cases _ _ _ _ hp with ⟨hi, hold⟩ | ⟨hi, hpb⟩
            · obtain ⟨q, hq, hq12⟩ := h2 i p j hold hk
              refine ⟨q, ?_, hq12⟩
              rw [happly,
                getElem?_append_left_eq _ _ _ (getElem?_lt_len _ _ _ hq)]
              exact hq
            · rw [hpb] at hk
              simp at hk
  | mk12 r f x sx bd bl d =>
      obtain ⟨a, w, ha, haw⟩ := validRef01_spec s r hok
      have hrlen : r < s.pulse_list.length := getElem?_lt_len _ _ _ ha
      set n := s.pulse_list.length with hn
      set B : PulseObj :=
        ⟨Pulse.init f x sx bd bl d n, .p12 r⟩ with hB
      have happly : (s.apply (.mk12 r f x sx bd bl d)).pulse_list =
          modifyAt (s.pulse_list ++ [B]) r (fun o => o.setPulse12 n) := rfl
      have hbase : (s.pulse_list ++ [B])[r]? = some a := by
        rw [getElem?_append_left_eq _ _ _ hrlen]
        exact ha
      have hVr : (s.apply (.mk12 r f x sx bd bl d)).pulse_list[r]? =
          some { a with kind := .p01 (some n) } := by
        rw [happly, modifyAt_getElem?_self _ _ _ _ hbase,
          setPulse12_of_p01 a w n haw]
      have hVn : (s.apply (.mk12 r f x sx bd bl d)).pulse_list[n]? =
          some B := by
        rw [happly, modifyAt_getElem?_ne _ _ _ _ (by omega),
          List.getElem?_append_right (by omega)]
        simp
      have hVother : ∀ i, i ≠ r → i < n →
          (s.apply (.mk12 r f x sx bd bl d)).pulse_list[i]? =
            s.pulse_list[i]? := by
        intro i hir hilt
        rw [happly, modifyAt_getElem?_ne _ _ _ _ (Ne.symm hir),
          getElem?_append_left_eq _ _ _ hilt]
      constructor
      · intro i p j hp hk
        by_cases hir : i = r
        · subst hir
          rw [hVr] at hp
          rw [← Option.some.inj hp] at hk
          simp at hk
        · by_cases hin : i = n
          · subst hin
            rw [hVn] at hp
            rw [← Option.some.inj hp] at hk
            simp [hB] at hk
            subst hk
            exact ⟨{ a with kind := .p01 (some n) }, hVr, rfl⟩
          · have hilt : i < n := by
              have := getElem?_lt_len _ _ _ hp
              rw [happly] at this
              unfold modifyAt at this
              rcases hmm : (s.pulse_list ++ [B])[r]? with - | v
              all_goals rw [hmm] at this
              · simp at this
                omega
              · simp at this
                omega
            rw [hVother i hir hilt] at hp
            obtain ⟨q, hq, hq01⟩ := h1 i p j hp hk
            have hjlt : j < n := getElem?_lt_len _ _ _ hq
            by_cases hjr : j = r
            · subst hjr
              refine ⟨{ a with kind := .p01 (some n) }, hVr, rfl⟩
            · exact ⟨q, by rw [hVother j hjr hjlt]; exact hq, hq01⟩
      · intro i p j hp hk
        by_cases hir : i = r
        · subst hir
          rw [hVr] at hp
          rw [← Option.some.inj hp] at hk
          simp at hk
          subst hk
          exact ⟨B, hVn, rfl⟩
        · by_cases hin : i = n
          · subst hin
            rw [hVn] at hp
            rw [← Option.some.inj hp] at hk
            simp [hB] at hk
          · have hilt : i < n := by
              have := getElem?_lt_len _ _ _ hp
              rw [happly] at this
              unfold modifyAt at this
              rcases hmm : (s.pulse_list ++ [B])[r]? with - | v
              all_goals rw [hmm] at this
              · simp at this
                omega
              · simp at this
                omega
            rw [hVother i hir hilt] at hp
            obtain ⟨q, hq, hq12⟩ := h2 i p j hp hk
            have hjlt : j < n := getElem?_lt_len _ _ _ hq
            by_cases hjr : j = r
            · subst hjr
              rw [ha] at hq
              rw [← Option.some.inj hq, haw] at hq12
              simp at hq12
            · exact ⟨q, by rw [hVother j hjr hjlt]; exact hq, hq12⟩

/-- Preservation of the partner invariants along a well-typed run with no
explicit `pulse12` arguments. -/
theorem run_partner_inv (ops : List PulseOp) (s : PulseState)
    (hok : opsOk s ops = true)
    (hnp : ∀ op ∈ ops, op.noExplicitPartner = true)
    (h1 : pulse01NonNull s) (h2 : partner01Consistent s) :
    pulse01NonNull (s.run ops) ∧ partner01Consistent (s.run ops) := by
  induction ops generalizing s with
  | nil => exact ⟨h1, h2⟩
  | cons op ops ih =>
      rw [opsOk, Bool.and_eq_true] at hok
      have hstep := apply_partner_inv s op hok.1 (hnp op (by simp))
        h1 h2
      exact ih (s.apply op) hok.2
        (fun o ho => hnp o (by simp [ho])) hstep.1 hstep.2

/-- C1 (amended): after any well-typed construction sequence from process
start in which every `Pulse01` is built without an explicit `pulse12`
argument, every `Pulse12`'s `pulse01` reference is a non-null constructed
`Pulse01`, and partner links are consistent in the forward direction:
A.pulse12 == B implies B.pulse01 == A.  (The reverse direction fails when
two `Pulse12` objects are built over one `Pulse01`, and the forward
direction fails for explicit `pulse12` arguments.) -/
theorem pulse_partner_forward_consistent (ops : List PulseOp)
    (hok : opsOk initState ops = true)
    (hnp : ∀ op ∈ ops, op.noExplicitPartner = true) :
    pulse01NonNull (initState.run ops) ∧
      partner01Consistent (initState.run ops) := by
  refine run_partner_inv ops initState hok hnp ?_ ?_
  · intro i p j hp
    simp [initState] at hp
  · intro i p j hp
    simp [initState] at hp

/-- Witness for C1 (amended) on a concrete `Pulse01`/`Pulse12` pair. -/
theorem pulse_partner_forward_consistent_witness :
    pulse01NonNull (initState.run pairOps) ∧
      partner01Consistent (initState.run pairOps) :=
  pulse_partner_forward_consistent pairOps (by decide) (by decide)

/-- C1 counterexample: constructing two `Pulse12` objects over the same
`Pulse01` (durations 1 and 2) leaves the first `Pulse12` referencing a
`Pulse01` whose `pulse12` points to the second — the claimed mutual
consistency `B.pulse01 == A → A.pulse12 == B` is violated. -/
theorem pulse_partner_mutual_counterexample :
    ¬ partner12Consistent (initState.run twoPartnerOps) := by
  intro h
  obtain ⟨q, hq, hkind⟩ :=
    h 1 ⟨⟨0, 0, 0, 0, 0, 1, 1 / 4, 1⟩, .p12 0⟩ 0 (by rfl) rfl
  have hq0 : (initState.run twoPartnerOps).pulse_list[(0 : ℕ)]? =
      some ⟨⟨0, 0, 0, 0, 0, 0, 0, 0⟩, .p01 (some 2)⟩ := by rfl
  rw [hq0] at hq
  rw [← Option.some.inj hq] at hkind
  simp at hkind

/-- Column characterization of the `pulse_dictionary` fold: each column
is the corresponding per-pulse projection mapped over the list. -/
theorem foldl_addRow (s : PulseState) (pulses : List PulseObj)
    (d : PulseDict) :
    pulses.foldl (addRow s) d =
      ⟨d.pulse_id ++ pulses.map (fun o => o.core.id),
       d.mode ++ pulses.map (fun o =>
         match o.kind with
         | .p01 _ => some "01"
         | .p12 _ => some "12"),
       d.duration ++ pulses.map (fun o => o.core.duration),
       d.frequency ++ pulses.map (fun o => o.core.frequency),
       d.x_amp ++ pulses.map (fun o => o.core.x_amp),
       d.sx_amp ++ pulses.map (fun o => o.core.sx_amp),
       d.beta_dephase ++ pulses.map (fun o => o.core.beta_dephase),
       d.beta_leakage ++ pulses.map (fun o => o.core.beta_leakage),
       d.sigma ++ pulses.map (fun o => o.core.sigma),
       d.pulse_pointer ++ pulses.map (fun o =>
         match o.kind with
         | .p01 none => none
         | .p01 (some r) => (s.pulse_list[r]?).map (fun q => q.core.id)
         | .p12 r => (s.pulse_list[r]?).map (fun q => q.core.id))⟩ := by
  induction pulses generalizing d with
  | nil => cases d; simp
  | cons o t ih =>
      rw [List.foldl_cons, ih]
      simp [addRow]

/-- C7: `pulse_dictionary` is a faithful tabular export: every column has
exactly one entry per pulse of the list, in list order; modes are "01"
for `Pulse01` and "12" for `Pulse12`; the partner-pointer entry is the
partner's id (`None` for an unpartnered `Pulse01`); and the scalar columns
reproduce the pulse's fields. -/
theorem pulse_dictionary_tabular (s : PulseState) (pulses : List PulseObj) :
    ((pulse_dictionary s pulses).pulse_id.length = pulses.length ∧
     (pulse_dictionary s pulses).mode.length = pulses.length ∧
     (pulse_dictionary s pulses).duration.length = pulses.length ∧
     (pulse_dictionary s pulses).frequency.length = pulses.length ∧
     (pulse_dictionary s pulses).x_amp.length = pulses.length ∧
     (pulse_dictionary s pulses).sx_amp.length = pulses.length ∧
     (pulse_dictionary s pulses).beta_dephase.length = pulses.length ∧
     (pulse_dictionary s pulses).beta_leakage.length = pulses.length ∧
     (pulse_dictionary s pulses).sigma.length = pulses.length ∧
     (pulse_dictionary s pulses).pulse_pointer.length = pulses.length) ∧
    (∀ (i : ℕ) (o : PulseObj), pulses[i]? = some o →
      ((pulse_dictionary s pulses).pulse_id[i]? = some o.core.id ∧
       (pulse_dictionary s pulses).duration[i]? = some o.core.duration ∧
       (pulse_dictionary s pulses).frequency[i]? = some o.core.frequency ∧
       (pulse_dictionary s pulses).x_amp[i]? = some o.core.x_amp ∧
       (pulse_dictionary s pulses).sx_amp[i]? = some o.core.sx_amp ∧
       (pulse_dictionary s pulses).beta_dephase[i]? =
         some o.core.beta_dephase ∧
       (pulse_dictionary s pulses).beta_leakage[i]? =
         some o.core.beta_leakage ∧
       (pulse_dictionary s pulses).sigma[i]? = some o.core.sigma) ∧
      (∀ w, o.kind = .p01 w →
        (pulse_dictionary s pulses).mode[i]? = some (some "01")) ∧
      (∀ r, o.kind = .p12 r →
        (pulse_dictionary s pulses).mode[i]? = some (some "12")) ∧
      (o.kind = .p01 none →
        (pulse_dictionary s pulses).pulse_pointer[i]? = some none) ∧
      (∀ r q, o.kind = .p01 (some r) → s.pulse_list[r]? = some q →
        (pulse_dictionary s pulses).pulse_pointer[i]? =
          some (some q.core.id)) ∧
      (∀ r q, o.kind = .p12 r → s.pulse_list[r]? = some q →
        (pulse_dictionary s pulses).pulse_pointer[i]? =
          some (some q.core.id))) := by
  have hd : pulse_dictionary s pulses = pulses.foldl (addRow s) emptyDict :=
    rfl
  rw [hd, foldl_addRow]
  refine ⟨by simp [emptyDict], ?_⟩
  intro i o ho
  refine ⟨?_, ?_, ?_, ?_, ?_, ?_⟩
  · simp [emptyDict, List.getElem?_map, ho]
  · intro w hw
    simp [emptyDict, List.getElem?_map, ho, hw]
  · intro r hr
    simp [emptyDict, List.getElem?_map, ho, hr]
  · intro hw
    simp [emptyDict, List.getElem?_map, ho, hw]
  · intro r q hr hq
    simp [emptyDict, List.getElem?_map, ho, hr, hq]
  · intro r q hr hq
    simp [emptyDict, List.getElem?_map, ho, hr, hq]

/-- Witness for C7 on the concrete linked pair: the `Pulse12` row carries
mode "12" and its partner's id 0, and its scalar columns match. -/
theorem pulse_dictionary_tabular_witness :
    (pulse_dictionary (initState.run pairOps)
        (initState.run pairOps).pulse_list).mode[(1 : ℕ)]? =
      some (some "12") ∧
    (pulse_dictionary (initState.run pairOps)
        (initState.run pairOps).pulse_list).pulse_pointer[(1 : ℕ)]? =
      some (some 0) ∧
    (pulse_dictionary (initState.run pairOps)
        (initState.run pairOps).pulse_list).frequency[(1 : ℕ)]? = some 5 := by
  have h := (pulse_dictionary_tabular (initState.run pairOps)
    (initState.run pairOps).pulse_list).2 1
    ⟨⟨5, 1, 0, 0, 0, 144, ((144 : ℤ) : ℚ) / 4, 1⟩, .p12 0⟩ (by rfl)
  refine ⟨h.2.2.1 0 rfl, ?_, h.1.2.2.1⟩
  exact h.2.2.2.2.2 0 ⟨⟨3, 1, 0, 0, 0, 144, ((144 : ℤ) : ℚ) / 4, 0⟩,
    .p01 (some 1)⟩ rfl (by rfl)

/-- C9: `save_pulses` writes a csv file for "csv", a json file for
"json", and raises `IOError("Unsupported type!")` for any other
`saved_type`, writing nothing (an `Except.error` carries no file). -/
theorem save_pulses_dispatch (d : PulseDict) (ty fn : String) :
    (ty ≠ "csv" → ty ≠ "json" →
      save_pulses d ty fn = .error "Unsupported type!") ∧
    (save_pulses d "csv" fn =
      .ok (.csv (fn ++ ".csv") d (d.mode.map fmtMode))) ∧
    (save_pulses d "json" fn = .ok (.json (fn ++ ".json") d)) := by
  refine ⟨?_, ?_, ?_⟩
  · intro h1 h2
    simp [save_pulses, h1, h2]
  · simp [save_pulses]
  · simp [save_pulses]

/-- Witness for C9: the "txt" type raises, "csv" and "json" succeed. -/
theorem save_pulses_dispatch_witness :
    save_pulses emptyDict "txt" "pulses" = .error "Unsupported type!" ∧
    save_pulses emptyDict "csv" "pulses" =
      .ok (.csv "pulses.csv" emptyDict []) ∧
    save_pulses emptyDict "json" "pulses" =
      .ok (.json "pulses.json" emptyDict) :=
  ⟨(save_pulses_dispatch emptyDict "txt" "pulses").1 (by decide) (by decide),
   (save_pulses_dispatch emptyDict "csv" "pulses").2.1,
   (save_pulses_dispatch emptyDict "json" "pulses").2.2⟩

/-- C10: `Pulse01.__eq__` holds exactly when the six scalar fields
(frequency, x_amp, sx_amp, beta_leakage, beta_dephase, duration) agree —
ids and partner references are never consulted — and `Pulse12.__eq__`
holds exactly when those six fields agree and the two `pulse01` partners
agree under the same six-field rule. -/
theorem pulse_eq_fieldwise :
    (∀ a b : PulseObj, pulse01_eq a b = true ↔
      (a.core.frequency = b.core.frequency ∧
       a.core.x_amp = b.core.x_amp ∧
       a.core.sx_amp = b.core.sx_amp ∧
       a.core.beta_leakage = b.core.beta_leakage ∧
       a.core.beta_dephase = b.core.beta_dephase ∧
       a.core.duration = b.core.duration)) ∧
    (∀ (s : PulseState) (a b : PulseObj) (i j : ℕ) (p q : PulseObj),
      a.kind = .p12 i → b.kind = .p12 j →
      s.pulse_list[i]? = some p → s.pulse_list[j]? = some q →
      (pulse12_eq s a b = true ↔
        ((a.core.frequency = b.core.frequency ∧
          a.core.x_amp = b.core.x_amp ∧
          a.core.sx_amp = b.core.sx_amp ∧
          a.core.beta_leakage = b.core.beta_leakage ∧
          a.core.beta_dephase = b.core.beta_dephase ∧
          a.core.duration = b.core.duration) ∧
         (p.core.frequency = q.core.frequency ∧
          p.core.x_amp = q.core.x_amp ∧
          p.core.sx_amp = q.core.sx_amp ∧
          p.core.beta_leakage = q.core.beta_leakage ∧
          p.core.beta_dephase = q.core.beta_dephase ∧
          p.core.duration = q.core.duration)))) := by
  constructor
  · intro a b
    simp [pulse01_eq, fieldsEq, Bool.and_eq_true, and_assoc]
  · intro s a b i j p q ha hb hp hq
    simp only [pulse12_eq, partnerObj, ha, hb, hp, hq]
    simp [pulse01_eq, fieldsEq, Bool.and_eq_true, and_assoc]

/-- Witness for C10: two `Pulse12` objects with different ids but equal
fields and field-equal partners compare equal. -/
theorem pulse_eq_fieldwise_witness :
    pulse12_eq (initState.run pairOps)
        ⟨⟨5, 1, 0, 0, 0, 144, 36, 1⟩, .p12 0⟩
        ⟨⟨5, 1, 0, 0, 0, 144, 36, 7⟩, .p12 0⟩ = true ↔
      (((5 : ℚ) = 5 ∧ (1 : ℚ) = 1 ∧ (0 : ℚ) = 0 ∧ (0 : ℚ) = 0 ∧
        (0 : ℚ) = 0 ∧ (144 : ℤ) = 144) ∧
       ((3 : ℚ) = 3 ∧ (1 : ℚ) = 1 ∧ (0 : ℚ) = 0 ∧ (0 : ℚ) = 0 ∧
        (0 : ℚ) = 0 ∧ (144 : ℤ) = 144)) :=
  pulse_eq_fieldwise.2 (initState.run pairOps)
    ⟨⟨5, 1, 0, 0, 0, 144, 36, 1⟩, .p12 0⟩
    ⟨⟨5, 1, 0, 0, 0, 144, 36, 7⟩, .p12 0⟩ 0 0
    ⟨⟨3, 1, 0, 0, 0, 144, ((144 : ℤ) : ℚ) / 4, 0⟩, .p01 (some 1)⟩
    ⟨⟨3, 1, 0, 0, 0, 144, ((144 : ℤ) : ℚ) / 4, 0⟩, .p01 (some 1)⟩
    rfl rfl (by rfl) (by rfl)

end QutritPulse

namespace QutritDecompose

/-!  Algebra of the subspace embeddings. -/

theorem embed01_one : embed01 1 = 1 := by
  ext i j
  fin_cases i <;> fin_cases j <;>
    simp [embed01, Matrix.one_apply, Matrix.vecHead, Matrix.vecTail]

theorem embed12_one : embed12 1 = 1 := by
  ext i j
  fin_cases i <;> fin_cases j <;>
    simp [embed12, Matrix.one_apply, Matrix.vecHead, Matrix.vecTail]

theorem embed01_mul (g h : Matrix (Fin 2) (Fin 2) ℂ) :
    embed01 g * embed01 h = embed01 (g * h) := by
  ext i j
  fin_cases i <;> fin_cases j <;>
    simp [embed01, Matrix.mul_apply, Fin.sum_univ_three, Fin.sum_univ_two,
      Matrix.vecHead, Matrix.vecTail]

theorem embed12_mul (g h : Matrix (Fin 2) (Fin 2) ℂ) :
    embed12 g * embed12 h = embed12 (g * h) := by
  ext i j
  fin_cases i <;> fin_cases j <;>
    simp [embed12, Matrix.mul_apply, Fin.sum_univ_three, Fin.sum_univ_two,
      Matrix.vecHead, Matrix.vecTail]

theorem embed01_conjT (g : Matrix (Fin 2) (Fin 2) ℂ) :
    (embed01 g).conjTranspose = embed01 g.conjTranspose := by
  ext i j
  fin_cases i <;> fin_cases j <;>
    simp [embed01, Matrix.conjTranspose_apply, Matrix.vecHead, Matrix.vecTail]

theorem embed12_conjT (g : Matrix (Fin 2) (Fin 2) ℂ) :
    (embed12 g).conjTranspose = embed12 g.conjTranspose := by
  ext i j
  fin_cases i <;> fin_cases j <;>
    simp [embed12, Matrix.conjTranspose_apply, Matrix.vecHead, Matrix.vecTail]


/-!  The Givens elimination block. -/

theorem gvR_nonneg (a b : ℂ) : 0 ≤ gvR a b := Real.sqrt_nonneg _

theorem gvR_sq (a b : ℂ) :
    (gvR a b) ^ 2 = Complex.normSq a + Complex.normSq b :=
  Real.sq_sqrt (add_nonneg (Complex.normSq_nonneg a) (Complex.normSq_nonneg b))

theorem gvR_eq_zero_iff (a b : ℂ) : gvR a b = 0 ↔ a = 0 ∧ b = 0 := by
  unfold gvR
  rw [Real.sqrt_eq_zero
    (add_nonneg (Complex.normSq_nonneg a) (Complex.normSq_nonneg b))]
  constructor
  · intro h
    have ha : Complex.normSq a = 0 := by
      nlinarith [Complex.normSq_nonneg a, Complex.normSq_nonneg b]
    have hb : Complex.normSq b = 0 := by
      nlinarith [Complex.normSq_nonneg a, Complex.normSq_nonneg b]
    exact ⟨Complex.normSq_eq_zero.mp ha, Complex.normSq_eq_zero.mp hb⟩
  · rintro ⟨rfl, rfl⟩
    simp

theorem abs_le_gvR (a b : ℂ) : Complex.abs a ≤ gvR a b := by
  rw [Complex.abs_apply]
  exact Real.sqrt_le_sqrt (by linarith [Complex.normSq_nonneg b])

theorem gvR_sq_c (a b : ℂ) :
    ((gvR a b : ℝ) : ℂ) ^ 2 =
      (starRingEnd ℂ) a * a + (starRingEnd ℂ) b * b := by
  have h2 : (((gvR a b) ^ 2 : ℝ) : ℂ) =
      ((Complex.normSq a : ℝ) : ℂ) + ((Complex.normSq b : ℝ) : ℂ) := by
    rw [gvR_sq]
    push_cast
    ring
  calc ((gvR a b : ℝ) : ℂ) ^ 2 = (((gvR a b) ^ 2 : ℝ) : ℂ) := by
        push_cast
        ring
    _ = a * (starRingEnd ℂ) a + b * (starRingEnd ℂ) b := by
        rw [h2, ← Complex.mul_conj a, ← Complex.mul_conj b]
    _ = (starRingEnd ℂ) a * a + (starRingEnd ℂ) b * b := by ring

theorem gvA_conjT_mul (a b : ℂ) :
    (!![star a, star b; -b, a] :
        Matrix (Fin 2) (Fin 2) ℂ).conjTranspose * !![star a, star b; -b, a] =
      ((starRingEnd ℂ) a * a + (starRingEnd ℂ) b * b) • 1 := by
  ext i j
  fin_cases i <;> fin_cases j <;>
    · simp [Matrix.mul_apply, Fin.sum_univ_two, Matrix.conjTranspose_apply,
        Matrix.smul_apply, Matrix.one_apply, Matrix.vecHead, Matrix.vecTail,
        Complex.star_def]
      ring

theorem gv_unitary (a b : ℂ) : (gv a b).conjTranspose * gv a b = 1 := by
  unfold gv
  by_cases h : gvR a b = 0
  · simp [h]
  · rw [if_neg h, Matrix.conjTranspose_smul, Matrix.smul_mul, Matrix.mul_smul,
      gvA_conjT_mul, smul_smul, smul_smul, ← gvR_sq_c]
    have hc : ((gvR a b : ℝ) : ℂ) ≠ 0 := by exact_mod_cast h
    have hs : star (((gvR a b : ℝ) : ℂ))⁻¹ = (((gvR a b : ℝ) : ℂ))⁻¹ := by
      rw [star_inv₀, Complex.star_def, Complex.conj_ofReal]
    rw [hs]
    have hone : ((((gvR a b : ℝ) : ℂ))⁻¹ * (((gvR a b : ℝ) : ℂ))⁻¹ *
        ((gvR a b : ℝ) : ℂ) ^ 2) = 1 := by
      field_simp
      ring
    rw [hone, one_smul]

theorem gv_elim_top (a b : ℂ) :
    gv a b 0 0 * a + gv a b 0 1 * b = ((gvR a b : ℝ) : ℂ) := by
  unfold gv
  by_cases h : gvR a b = 0
  · obtain ⟨ha, hb⟩ := (gvR_eq_zero_iff a b).mp h
    rw [if_pos h, h, ha, hb]
    simp
  · rw [if_neg h]
    have hc : ((gvR a b : ℝ) : ℂ) ≠ 0 := by exact_mod_cast h
    rw [show ((((gvR a b : ℝ) : ℂ))⁻¹ •
        (!![star a, star b; -b, a] : Matrix (Fin 2) (Fin 2) ℂ)) 0 0 =
        (((gvR a b : ℝ) : ℂ))⁻¹ * (starRingEnd ℂ) a from rfl,
      show ((((gvR a b : ℝ) : ℂ))⁻¹ •
        (!![star a, star b; -b, a] : Matrix (Fin 2) (Fin 2) ℂ)) 0 1 =
        (((gvR a b : ℝ) : ℂ))⁻¹ * (starRingEnd ℂ) b from rfl]
    field_simp
    linear_combination (-1 : ℂ) * gvR_sq_c a b

theorem gv_elim_bot (a b : ℂ) :
    gv a b 1 0 * a + gv a b 1 1 * b = 0 := by
  unfold gv
  by_cases h : gvR a b = 0
  · obtain ⟨ha, hb⟩ := (gvR_eq_zero_iff a b).mp h
    rw [if_pos h, ha, hb]
    simp
  · rw [if_neg h]
    rw [show ((((gvR a b : ℝ) : ℂ))⁻¹ •
        (!![star a, star b; -b, a] : Matrix (Fin 2) (Fin 2) ℂ)) 1 0 =
        (((gvR a b : ℝ) : ℂ))⁻¹ * -b from rfl,
      show ((((gvR a b : ℝ) : ℂ))⁻¹ •
        (!![star a, star b; -b, a] : Matrix (Fin 2) (Fin 2) ℂ)) 1 1 =
        (((gvR a b : ℝ) : ℂ))⁻¹ * a from rfl]
    ring


/-!  ZYZ realization of the inverse Givens block. -/

theorem abs_mul_exp_neg_arg (z : ℂ) :
    ((Complex.abs z : ℝ) : ℂ) *
      Complex.exp (-((Complex.arg z : ℝ) : ℂ) * Complex.I) =
      (starRingEnd ℂ) z := by
  have h := congrArg (starRingEnd ℂ) (Complex.abs_mul_exp_arg_mul_I z)
  rw [map_mul, Complex.conj_ofReal, ← Complex.exp_conj, map_mul,
    Complex.conj_ofReal, Complex.conj_I, mul_neg] at h
  rw [neg_mul]
  exact h

theorem exp_neg_pi_I : Complex.exp (-((Real.pi : ℝ) : ℂ) * Complex.I) = -1 := by
  rw [neg_mul, Complex.exp_neg, Complex.exp_pi_mul_I]
  norm_num

theorem cos_half_theta (a b : ℂ) (h : gvR a b ≠ 0) :
    Real.cos (zyzTheta a b / 2) = Complex.abs a / gvR a b := by
  have hr0 : 0 < gvR a b := lt_of_le_of_ne (gvR_nonneg a b) (Ne.symm h)
  unfold zyzTheta
  rw [mul_div_cancel_left₀ _ (two_ne_zero : (2 : ℝ) ≠ 0)]
  refine Real.cos_arccos ?_ ?_
  · have h0 : 0 ≤ Complex.abs a / gvR a b := by positivity
    linarith
  · rw [div_le_one hr0]
    exact abs_le_gvR a b

theorem sin_half_theta (a b : ℂ) (h : gvR a b ≠ 0) :
    Real.sin (zyzTheta a b / 2) = Complex.abs b / gvR a b := by
  have hr0 : 0 < gvR a b := lt_of_le_of_ne (gvR_nonneg a b) (Ne.symm h)
  unfold zyzTheta
  rw [mul_div_cancel_left₀ _ (two_ne_zero : (2 : ℝ) ≠ 0), Real.sin_arccos]
  have habs : (Complex.abs a) ^ 2 + (Complex.abs b) ^ 2 = (gvR a b) ^ 2 := by
    rw [gvR_sq, Complex.normSq_eq_abs, Complex.normSq_eq_abs]
  have h1 : 1 - (Complex.abs a / gvR a b) ^ 2 =
      (Complex.abs b / gvR a b) ^ 2 := by
    field_simp
    linarith
  rw [h1, Real.sqrt_sq (by positivity)]

theorem zyz_eq_gv_dagger (a b : ℂ) (h : gvR a b ≠ 0) :
    rotZ (-(zyzBeta a b)) * rotY (-(zyzTheta a b)) * rotZ (-(zyzAlpha a b)) =
      (gv a b).conjTranspose := by
  have hc : ((gvR a b : ℝ) : ℂ) ≠ 0 := by exact_mod_cast h
  have hθc : ((zyzTheta a b : ℝ) : ℂ) / 2 =
      ((zyzTheta a b / 2 : ℝ) : ℂ) := by
    push_cast
    ring
  have hcos : Complex.cos (((zyzTheta a b : ℝ) : ℂ) / 2) =
      ((Complex.abs a / gvR a b : ℝ) : ℂ) := by
    rw [hθc, ← Complex.ofReal_cos, cos_half_theta a b h]
  have hsin : Complex.sin (((zyzTheta a b : ℝ) : ℂ) / 2) =
      ((Complex.abs b / gvR a b : ℝ) : ℂ) := by
    rw [hθc, ← Complex.ofReal_sin, sin_half_theta a b h]
  rw [gv, if_neg h]
  ext i j
  fin_cases i <;> fin_cases j
  · -- entry (0,0)
    simp only [rotZ, rotY, Matrix.mul_apply, Fin.sum_univ_two]
    simp [Matrix.vecHead, Matrix.vecTail, neg_div, Real.cos_neg, Real.sin_neg,
      Matrix.conjTranspose_apply, Matrix.smul_apply]
    rw [hcos]
    have hang : ((zyzBeta a b : ℝ) : ℂ) / 2 * Complex.I +
        ((zyzAlpha a b : ℝ) : ℂ) / 2 * Complex.I =
        ((Complex.arg a : ℝ) : ℂ) * Complex.I := by
      simp only [zyzAlpha, zyzBeta]
      push_cast
      ring
    calc Complex.exp (((zyzBeta a b : ℝ) : ℂ) / 2 * Complex.I) *
          ((Complex.abs a / gvR a b : ℝ) : ℂ) *
          Complex.exp (((zyzAlpha a b : ℝ) : ℂ) / 2 * Complex.I)
        = ((Complex.abs a / gvR a b : ℝ) : ℂ) *
            Complex.exp (((zyzBeta a b : ℝ) : ℂ) / 2 * Complex.I +
              ((zyzAlpha a b : ℝ) : ℂ) / 2 * Complex.I) := by
          rw [Complex.exp_add]
          ring
      _ = ((Complex.abs a / gvR a b : ℝ) : ℂ) *
            Complex.exp (((Complex.arg a : ℝ) : ℂ) * Complex.I) := by
          rw [hang]
      _ = (((gvR a b : ℝ) : ℂ))⁻¹ * (((Complex.abs a : ℝ) : ℂ) *
            Complex.exp (((Complex.arg a : ℝ) : ℂ) * Complex.I)) := by
          push_cast
          ring
      _ = (((gvR a b : ℝ) : ℂ))⁻¹ * a := by
          rw [Complex.abs_mul_exp_arg_mul_I]
  · -- entry (0,1)
    simp only [rotZ, rotY, Matrix.mul_apply, Fin.sum_univ_two]
    simp [Matrix.vecHead, Matrix.vecTail, neg_div, Real.cos_neg, Real.sin_neg,
      Matrix.conjTranspose_apply, Matrix.smul_apply]
    rw [hsin]
    have hang : ((zyzBeta a b : ℝ) : ℂ) / 2 * Complex.I +
        -(((zyzAlpha a b : ℝ) : ℂ) / 2 * Complex.I) =
        -((Complex.arg b : ℝ) : ℂ) * Complex.I +
          -((Real.pi : ℝ) : ℂ) * Complex.I := by
      simp only [zyzAlpha, zyzBeta]
      push_cast
      ring
    calc Complex.exp (((zyzBeta a b : ℝ) : ℂ) / 2 * Complex.I) *
          ((Complex.abs b / gvR a b : ℝ) : ℂ) *
          Complex.exp (-(((zyzAlpha a b : ℝ) : ℂ) / 2 * Complex.I))
        = ((Complex.abs b / gvR a b : ℝ) : ℂ) *
            Complex.exp (((zyzBeta a b : ℝ) : ℂ) / 2 * Complex.I +
              -(((zyzAlpha a b : ℝ) : ℂ) / 2 * Complex.I)) := by
          rw [Complex.exp_add]
          ring
      _ = ((Complex.abs b / gvR a b : ℝ) : ℂ) *
            (Complex.exp (-((Complex.arg b : ℝ) : ℂ) * Complex.I) *
              Complex.exp (-((Real.pi : ℝ) : ℂ) * Complex.I)) := by
          rw [hang, Complex.exp_add]
      _ = ((Complex.abs b / gvR a b : ℝ) : ℂ) *
            (Complex.exp (-((Complex.arg b : ℝ) : ℂ) * Complex.I) * -1) := by
          rw [exp_neg_pi_I]
      _ = -((((gvR a b : ℝ) : ℂ))⁻¹ * (((Complex.abs b : ℝ) : ℂ) *
            Complex.exp (-((Complex.arg b : ℝ) : ℂ) * Complex.I))) := by
          push_cast
          ring
      _ = -((((gvR a b : ℝ) : ℂ))⁻¹ * (starRingEnd ℂ) b) := by
          rw [abs_mul_exp_neg_arg]
  · -- entry (1,0)
    simp only [rotZ, rotY, Matrix.mul_apply, Fin.sum_univ_two]
    simp [Matrix.vecHead, Matrix.vecTail, neg_div, Real.cos_neg, Real.sin_neg,
      Matrix.conjTranspose_apply, Matrix.smul_apply]
    rw [hsin]
    have hang : -(((zyzBeta a b : ℝ) : ℂ) / 2 * Complex.I) +
        ((zyzAlpha a b : ℝ) : ℂ) / 2 * Complex.I =
        ((Complex.arg b : ℝ) : ℂ) * Complex.I +
          ((Real.pi : ℝ) : ℂ) * Complex.I := by
      simp only [zyzAlpha, zyzBeta]
      push_cast
      ring
    calc -(Complex.exp (-(((zyzBeta a b : ℝ) : ℂ) / 2 * Complex.I)) *
          ((Complex.abs b / gvR a b : ℝ) : ℂ) *
          Complex.exp (((zyzAlpha a b : ℝ) : ℂ) / 2 * Complex.I))
        = -(((Complex.abs b / gvR a b : ℝ) : ℂ) *
            Complex.exp (-(((zyzBeta a b : ℝ) : ℂ) / 2 * Complex.I) +
              ((zyzAlpha a b : ℝ) : ℂ) / 2 * Complex.I)) := by
          rw [Complex.exp_add]
          ring
      _ = -(((Complex.abs b / gvR a b : ℝ) : ℂ) *
            (Complex.exp (((Complex.arg b : ℝ) : ℂ) * Complex.I) *
              Complex.exp (((Real.pi : ℝ) : ℂ) * Complex.I))) := by
          rw [hang, Complex.exp_add]
      _ = -(((Complex.abs b / gvR a b : ℝ) : ℂ) *
            (Complex.exp (((Complex.arg b : ℝ) : ℂ) * Complex.I) * -1)) := by
          rw [Complex.exp_pi_mul_I]
      _ = (((gvR a b : ℝ) : ℂ))⁻¹ * (((Complex.abs b : ℝ) : ℂ) *
            Complex.exp (((Complex.arg b : ℝ) : ℂ) * Complex.I)) := by
          push_cast
          ring
      _ = (((gvR a b : ℝ) : ℂ))⁻¹ * b := by
          rw [Complex.abs_mul_exp_arg_mul_I]
  · -- entry (1,1)
    simp only [rotZ, rotY, Matrix.mul_apply, Fin.sum_univ_two]
    simp [Matrix.vecHead, Matrix.vecTail, neg_div, Real.cos_neg, Real.sin_neg,
      Matrix.conjTranspose_apply, Matrix.smul_apply]
    rw [hcos]
    have hang : -(((zyzBeta a b : ℝ) : ℂ) / 2 * Complex.I) +
        -(((zyzAlpha a b : ℝ) : ℂ) / 2 * Complex.I) =
        -((Complex.arg a : ℝ) : ℂ) * Complex.I := by
      simp only [zyzAlpha, zyzBeta]
      push_cast
      ring
    calc Complex.exp (-(((zyzBeta a b : ℝ) : ℂ) / 2 * Complex.I)) *
          ((Complex.abs a / gvR a b : ℝ) : ℂ) *
          Complex.exp (-(((zyzAlpha a b : ℝ) : ℂ) / 2 * Complex.I))
        = ((Complex.abs a / gvR a b : ℝ) : ℂ) *
            Complex.exp (-(((zyzBeta a b : ℝ) : ℂ) / 2 * Complex.I) +
              -(((zyzAlpha a b : ℝ) : ℂ) / 2 * Complex.I)) := by
          rw [Complex.exp_add]
          ring
      _ = ((Complex.abs a / gvR a b : ℝ) : ℂ) *
            Complex.exp (-((Complex.arg a : ℝ) : ℂ) * Complex.I) := by
          rw [hang]
      _ = (((gvR a b : ℝ) : ℂ))⁻¹ * (((Complex.abs a : ℝ) : ℂ) *
            Complex.exp (-((Complex.arg a : ℝ) : ℂ) * Complex.I)) := by
          push_cast
          ring
      _ = (((gvR a b : ℝ) : ℂ))⁻¹ * (starRingEnd ℂ) a := by
          rw [abs_mul_exp_neg_arg]


/-!  Product of the rotations emitted for one elimination step. -/

theorem gv_trivial (a b : ℂ)
    (h : gvR a b = 0 ∨ (b = 0 ∧ a = ((gvR a b : ℝ) : ℂ))) : gv a b = 1 := by
  by_cases h0 : gvR a b = 0
  · rw [gv, if_pos h0]
  · rcases h with h | ⟨hb, ha⟩
    · exact absurd h h0
    · rw [gv, if_neg h0]
      have hc : ((gvR a b : ℝ) : ℂ) ≠ 0 := by exact_mod_cast h0
      set t := gvR a b with ht
      ext i j
      fin_cases i <;> fin_cases j <;>
          simp [ha, hb, Matrix.smul_apply, Matrix.one_apply, Matrix.vecHead,
            Matrix.vecTail, Complex.conj_ofReal] <;>
          field_simp

theorem elemRot_matrix_s01_z (ω : ℝ) :
    (⟨.s01, .z, ω⟩ : ElemRot).matrix = embed01 (rotZ ω) := rfl

theorem elemRot_matrix_s01_y (ω : ℝ) :
    (⟨.s01, .y, ω⟩ : ElemRot).matrix = embed01 (rotY ω) := rfl

theorem elemRot_matrix_s12_z (ω : ℝ) :
    (⟨.s12, .z, ω⟩ : ElemRot).matrix = embed12 (rotZ ω) := rfl

theorem elemRot_matrix_s12_y (ω : ℝ) :
    (⟨.s12, .y, ω⟩ : ElemRot).matrix = embed12 (rotY ω) := rfl

theorem stepRots_prod (sub : Subspace) (a b : ℂ) :
    rotListProd (stepRots sub a b) = (sub.embed (gv a b)).conjTranspose := by
  unfold stepRots
  by_cases h : gvR a b = 0 ∨ (b = 0 ∧ a = ((gvR a b : ℝ) : ℂ))
  · rw [if_pos h, gv_trivial a b h]
    cases sub with
    | s01 => simp [rotListProd, Subspace.embed, embed01_one]
    | s12 => simp [rotListProd, Subspace.embed, embed12_one]
  · rw [if_neg h]
    have hr : gvR a b ≠ 0 := fun h0 => h (Or.inl h0)
    cases sub with
    | s01 =>
        show rotListProd _ = (embed01 (gv a b)).conjTranspose
        rw [rotListProd]
        simp only [List.map_cons, List.map_nil, List.prod_cons,
          List.prod_nil, mul_one, elemRot_matrix_s01_z, elemRot_matrix_s01_y]
        rw [embed01_mul, embed01_mul, ← mul_assoc,
          zyz_eq_gv_dagger a b hr, ← embed01_conjT]
    | s12 =>
        show rotListProd _ = (embed12 (gv a b)).conjTranspose
        rw [rotListProd]
        simp only [List.map_cons, List.map_nil, List.prod_cons,
          List.prod_nil, mul_one, elemRot_matrix_s12_z, elemRot_matrix_s12_y]
        rw [embed12_mul, embed12_mul, ← mul_assoc,
          zyz_eq_gv_dagger a b hr, ← embed12_conjT]


/-!  Unitarity propagation and the entries of the elimination states. -/

theorem uc_mul {A B : M3} (hA : unitaryCheck A) (hB : unitaryCheck B) :
    unitaryCheck (A * B) := by
  unfold unitaryCheck at hA hB ⊢
  rw [Matrix.conjTranspose_mul, mul_assoc, ← mul_assoc A.conjTranspose,
    hA, one_mul, hB]

theorem embed01_uc {g : Matrix (Fin 2) (Fin 2) ℂ}
    (hg : g.conjTranspose * g = 1) : unitaryCheck (embed01 g) := by
  unfold unitaryCheck
  rw [embed01_conjT, embed01_mul, hg, embed01_one]

theorem embed12_uc {g : Matrix (Fin 2) (Fin 2) ℂ}
    (hg : g.conjTranspose * g = 1) : unitaryCheck (embed12 g) := by
  unfold unitaryCheck
  rw [embed12_conjT, embed12_mul, hg, embed12_one]

theorem m1_uc {U : M3} (hU : unitaryCheck U) : unitaryCheck (m1 U) := by
  unfold m1 g1
  exact uc_mul (embed12_uc (gv_unitary _ _)) hU

theorem m2_uc {U : M3} (hU : unitaryCheck U) : unitaryCheck (m2 U) := by
  unfold m2 g2
  exact uc_mul (embed01_uc (gv_unitary _ _)) (m1_uc hU)

theorem m3_uc {U : M3} (hU : unitaryCheck U) : unitaryCheck (m3 U) := by
  unfold m3 g3
  exact uc_mul (embed12_uc (gv_unitary _ _)) (m2_uc hU)

theorem uc_col (M : M3) (h : unitaryCheck M) (j k : Fin 3) :
    (starRingEnd ℂ) (M 0 j) * M 0 k + (starRingEnd ℂ) (M 1 j) * M 1 k +
      (starRingEnd ℂ) (M 2 j) * M 2 k = if j = k then 1 else 0 := by
  have hjk := congrFun (congrFun h j) k
  rw [Matrix.mul_apply, Fin.sum_univ_three] at hjk
  simpa [Matrix.conjTranspose_apply, Matrix.one_apply, Complex.star_def]
    using hjk

theorem embed12_mul_row0 (g : Matrix (Fin 2) (Fin 2) ℂ) (U : M3) (j : Fin 3) :
    (embed12 g * U) 0 j = U 0 j := by
  rw [Matrix.mul_apply, Fin.sum_univ_three]
  simp [embed12, Matrix.vecHead, Matrix.vecTail]

theorem embed12_mul_row1 (g : Matrix (Fin 2) (Fin 2) ℂ) (U : M3) (j : Fin 3) :
    (embed12 g * U) 1 j = g 0 0 * U 1 j + g 0 1 * U 2 j := by
  rw [Matrix.mul_apply, Fin.sum_univ_three]
  simp [embed12, Matrix.vecHead, Matrix.vecTail]

theorem embed12_mul_row2 (g : Matrix (Fin 2) (Fin 2) ℂ) (U : M3) (j : Fin 3) :
    (embed12 g * U) 2 j = g 1 0 * U 1 j + g 1 1 * U 2 j := by
  rw [Matrix.mul_apply, Fin.sum_univ_three]
  simp [embed12, Matrix.vecHead, Matrix.vecTail]

theorem embed01_mul_row0 (g : Matrix (Fin 2) (Fin 2) ℂ) (U : M3) (j : Fin 3) :
    (embed01 g * U) 0 j = g 0 0 * U 0 j + g 0 1 * U 1 j := by
  rw [Matrix.mul_apply, Fin.sum_univ_three]
  simp [embed01, Matrix.vecHead, Matrix.vecTail]

theorem embed01_mul_row1 (g : Matrix (Fin 2) (Fin 2) ℂ) (U : M3) (j : Fin 3) :
    (embed01 g * U) 1 j = g 1 0 * U 0 j + g 1 1 * U 1 j := by
  rw [Matrix.mul_apply, Fin.sum_univ_three]
  simp [embed01, Matrix.vecHead, Matrix.vecTail]

theorem embed01_mul_row2 (g : Matrix (Fin 2) (Fin 2) ℂ) (U : M3) (j : Fin 3) :
    (embed01 g * U) 2 j = U 2 j := by
  rw [Matrix.mul_apply, Fin.sum_univ_three]
  simp [embed01, Matrix.vecHead, Matrix.vecTail]

theorem m1_row0 (U : M3) (j : Fin 3) : m1 U 0 j = U 0 j := by
  unfold m1 g1
  exact embed12_mul_row0 _ _ _

theorem m1_10 (U : M3) : m1 U 1 0 = ((gvR (U 1 0) (U 2 0) : ℝ) : ℂ) := by
  unfold m1 g1
  rw [embed12_mul_row1]
  exact gv_elim_top _ _

theorem m1_20 (U : M3) : m1 U 2 0 = 0 := by
  unfold m1 g1
  rw [embed12_mul_row2]
  exact gv_elim_bot _ _

theorem m2_00 (U : M3) :
    m2 U 0 0 = ((gvR (m1 U 0 0) (m1 U 1 0) : ℝ) : ℂ) := by
  unfold m2 g2
  rw [embed01_mul_row0]
  exact gv_elim_top _ _

theorem m2_10 (U : M3) : m2 U 1 0 = 0 := by
  unfold m2 g2
  rw [embed01_mul_row1]
  exact gv_elim_bot _ _

theorem m2_row2 (U : M3) (j : Fin 3) : m2 U 2 j = m1 U 2 j := by
  unfold m2 g2
  exact embed01_mul_row2 _ _ _

theorem m2_20 (U : M3) : m2 U 2 0 = 0 := by
  rw [m2_row2]
  exact m1_20 U

theorem m2_00_one {U : M3} (hU : unitaryCheck U) : m2 U 0 0 = 1 := by
  have hcol := uc_col (m2 U) (m2_uc hU) 0 0
  rw [m2_10, m2_20, m2_00] at hcol
  simp [Complex.conj_ofReal] at hcol
  set r : ℝ := gvR (m1 U 0 0) (m1 U 1 0) with hrdef
  have hr2 : r * r = 1 := by exact_mod_cast hcol
  have hr1 : r = 1 := by nlinarith [gvR_nonneg (m1 U 0 0) (m1 U 1 0)]
  rw [m2_00, ← hrdef, hr1]
  norm_num

theorem m2_01_zero {U : M3} (hU : unitaryCheck U) : m2 U 0 1 = 0 := by
  have hcol := uc_col (m2 U) (m2_uc hU) 0 1
  rw [m2_10, m2_20, m2_00_one hU] at hcol
  simpa using hcol

theorem m2_02_zero {U : M3} (hU : unitaryCheck U) : m2 U 0 2 = 0 := by
  have hcol := uc_col (m2 U) (m2_uc hU) 0 2
  rw [m2_10, m2_20, m2_00_one hU] at hcol
  simpa using hcol

theorem m3_row0 (U : M3) (j : Fin 3) : m3 U 0 j = m2 U 0 j := by
  unfold m3 g3
  exact embed12_mul_row0 _ _ _

theorem m3_00_one {U : M3} (hU : unitaryCheck U) : m3 U 0 0 = 1 := by
  rw [m3_row0]
  exact m2_00_one hU

theorem m3_01_zero {U : M3} (hU : unitaryCheck U) : m3 U 0 1 = 0 := by
  rw [m3_row0]
  exact m2_01_zero hU

theorem m3_02_zero {U : M3} (hU : unitaryCheck U) : m3 U 0 2 = 0 := by
  rw [m3_row0]
  exact m2_02_zero hU

theorem m3_10_zero (U : M3) : m3 U 1 0 = 0 := by
  unfold m3 g3
  rw [embed12_mul_row1, m2_10, m2_20]
  ring

theorem m3_20_zero (U : M3) : m3 U 2 0 = 0 := by
  unfold m3 g3
  rw [embed12_mul_row2, m2_10, m2_20]
  ring

theorem m3_11 (U : M3) :
    m3 U 1 1 = ((gvR (m2 U 1 1) (m2 U 2 1) : ℝ) : ℂ) := by
  unfold m3 g3
  rw [embed12_mul_row1]
  exact gv_elim_top _ _

theorem m3_21_zero (U : M3) : m3 U 2 1 = 0 := by
  unfold m3 g3
  rw [embed12_mul_row2]
  exact gv_elim_bot _ _

theorem m3_11_one {U : M3} (hU : unitaryCheck U) : m3 U 1 1 = 1 := by
  have hcol := uc_col (m3 U) (m3_uc hU) 1 1
  rw [m3_01_zero hU, m3_21_zero, m3_11] at hcol
  simp [Complex.conj_ofReal] at hcol
  set r : ℝ := gvR (m2 U 1 1) (m2 U 2 1) with hrdef
  have hr2 : r * r = 1 := by exact_mod_cast hcol
  have hr1 : r = 1 := by nlinarith [gvR_nonneg (m2 U 1 1) (m2 U 2 1)]
  rw [m3_11, ← hrdef, hr1]
  norm_num

theorem m3_12_zero {U : M3} (hU : unitaryCheck U) : m3 U 1 2 = 0 := by
  have hcol := uc_col (m3 U) (m3_uc hU) 1 2
  rw [m3_01_zero hU, m3_21_zero, m3_11_one hU] at hcol
  simpa using hcol

theorem m3_22_abs_one {U : M3} (hU : unitaryCheck U) :
    Complex.abs (m3 U 2 2) = 1 := by
  have hcol := uc_col (m3 U) (m3_uc hU) 2 2
  rw [m3_02_zero hU, m3_12_zero hU] at hcol
  simp at hcol
  have hsq : Complex.normSq (m3 U 2 2) = 1 := by
    have := Complex.mul_conj (m3 U 2 2)
    rw [mul_comm] at this
    rw [this] at hcol
    exact_mod_cast hcol
  have := Complex.normSq_eq_abs (m3 U 2 2)
  rw [hsq] at this
  nlinarith [Complex.abs.nonneg (m3 U 2 2)]


/-!  The residual diagonal stage and the round-trip theorem. -/

theorem rotZ_zero : rotZ 0 = 1 := by
  ext i j
  fin_cases i <;> fin_cases j <;>
    simp [rotZ, Matrix.one_apply, Matrix.vecHead, Matrix.vecTail]

theorem diag_prod2 (U : M3) :
    rotListProd (diagRots U) = embed01 (rotZ (thZ U)) * embed12 (rotZ (laZ U)) := by
  unfold diagRots
  by_cases h1 : thZ U = 0 <;> by_cases h2 : laZ U = 0 <;>
    simp [h1, h2, rotListProd, elemRot_matrix_s01_z, elemRot_matrix_s12_z,
      rotZ_zero, embed01_one, embed12_one]

theorem zz_entries (t l : ℝ) :
    embed01 (rotZ t) * embed12 (rotZ l) =
      !![Complex.exp (-(((t : ℝ) : ℂ) / 2 * Complex.I)), 0, 0;
         0, Complex.exp (((t : ℝ) : ℂ) / 2 * Complex.I) *
           Complex.exp (-(((l : ℝ) : ℂ) / 2 * Complex.I)), 0;
         0, 0, Complex.exp (((l : ℝ) : ℂ) / 2 * Complex.I)] := by
  ext i j
  fin_cases i <;> fin_cases j <;>
    simp [embed01, embed12, rotZ, Matrix.mul_apply, Fin.sum_univ_three,
      Matrix.vecHead, Matrix.vecTail, neg_div]

theorem exp_arg_of_abs_one {z : ℂ} (hz : Complex.abs z = 1) :
    Complex.exp (((Complex.arg z : ℝ) : ℂ) * Complex.I) = z := by
  have h := Complex.abs_mul_exp_arg_mul_I z
  rw [hz] at h
  simpa using h

theorem exp_phi_zz_eq_m3 {U : M3} (hU : unitaryCheck U) :
    Complex.exp (((phi U : ℝ) : ℂ) * Complex.I) •
      (embed01 (rotZ (thZ U)) * embed12 (rotZ (laZ U))) = m3 U := by
  rw [zz_entries]
  ext i j
  fin_cases i <;> fin_cases j <;>
    simp [Matrix.smul_apply, Matrix.vecHead, Matrix.vecTail]
  · -- (0,0)
    rw [← Complex.exp_add,
      show (((phi U : ℝ) : ℂ) * Complex.I +
          -(((thZ U : ℝ) : ℂ) / 2 * Complex.I)) =
        ((phi U - thZ U / 2 : ℝ) : ℂ) * Complex.I from by push_cast; ring,
      show phi U - thZ U / 2 = Complex.arg (m3 U 0 0) from by
        unfold thZ; ring]
    exact exp_arg_of_abs_one (by rw [m3_00_one hU]; simp)
  · exact (m3_01_zero hU).symm
  · exact (m3_02_zero hU).symm
  · exact (m3_10_zero U).symm
  · -- (1,1)
    rw [← Complex.exp_add, ← Complex.exp_add,
      show (((phi U : ℝ) : ℂ) * Complex.I +
          (((thZ U : ℝ) : ℂ) / 2 * Complex.I +
            -(((laZ U : ℝ) : ℂ) / 2 * Complex.I))) =
        ((phi U + thZ U / 2 - laZ U / 2 : ℝ) : ℂ) * Complex.I from by
          push_cast; ring,
      show phi U + thZ U / 2 - laZ U / 2 = Complex.arg (m3 U 1 1) from by
        unfold thZ laZ phi; ring]
    exact exp_arg_of_abs_one (by rw [m3_11_one hU]; simp)
  · exact (m3_12_zero hU).symm
  · exact (m3_20_zero U).symm
  · exact (m3_21_zero U).symm
  · -- (2,2)
    rw [← Complex.exp_add,
      show (((phi U : ℝ) : ℂ) * Complex.I +
          ((laZ U : ℝ) : ℂ) / 2 * Complex.I) =
        ((phi U + laZ U / 2 : ℝ) : ℂ) * Complex.I from by push_cast; ring,
      show phi U + laZ U / 2 = Complex.arg (m3 U 2 2) from by
        unfold laZ; ring]
    exact exp_arg_of_abs_one (m3_22_abs_one hU)

theorem gdag_mul_m1 (U : M3) :
    (embed12 (gv (U 1 0) (U 2 0))).conjTranspose * m1 U = U := by
  have hg := embed12_uc (gv_unitary (U 1 0) (U 2 0))
  unfold unitaryCheck at hg
  unfold m1 g1
  rw [← mul_assoc, hg, one_mul]

theorem gdag_mul_m2 (U : M3) :
    (embed01 (gv (m1 U 0 0) (m1 U 1 0))).conjTranspose * m2 U = m1 U := by
  have hg := embed01_uc (gv_unitary (m1 U 0 0) (m1 U 1 0))
  unfold unitaryCheck at hg
  unfold m2 g2
  rw [← mul_assoc, hg, one_mul]

theorem gdag_mul_m3 (U : M3) :
    (embed12 (gv (m2 U 1 1) (m2 U 2 1))).conjTranspose * m3 U = m2 U := by
  have hg := embed12_uc (gv_unitary (m2 U 1 1) (m2 U 2 1))
  unfold unitaryCheck at hg
  unfold m3 g3
  rw [← mul_assoc, hg, one_mul]

/-- C3: for every 3×3 complex matrix U that passes the (tolerance-0)
unitarity check, the ordered product of the matrices of the rotations
returned by the decomposer, multiplied by e^(iφ) for the returned global
phase φ, equals U exactly. -/
theorem decompose_roundtrip (U : M3) (h : unitaryCheck U) :
    Complex.exp (((globalPhase U : ℝ) : ℂ) * Complex.I) •
      rotListProd (decomposeRots U) = U := by
  have hsplit : rotListProd (decomposeRots U) =
      rotListProd (stepRots .s12 (U 1 0) (U 2 0)) *
        rotListProd (stepRots .s01 (m1 U 0 0) (m1 U 1 0)) *
        rotListProd (stepRots .s12 (m2 U 1 1) (m2 U 2 1)) *
        rotListProd (diagRots U) := by
    unfold decomposeRots rotListProd
    rw [List.map_append, List.map_append, List.map_append,
      List.prod_append, List.prod_append, List.prod_append]
  rw [hsplit, stepRots_prod, stepRots_prod, stepRots_prod, diag_prod2]
  simp only [Subspace.embed]
  rw [show globalPhase U = phi U from rfl, ← Matrix.mul_smul,
    exp_phi_zz_eq_m3 h, mul_assoc, gdag_mul_m3, mul_assoc, gdag_mul_m2,
    gdag_mul_m1]

/-- Witness for C3 at the identity matrix, which passes the unitarity
check. -/
theorem decompose_roundtrip_witness :
    Complex.exp (((globalPhase (1 : M3) : ℝ) : ℂ) * Complex.I) •
      rotListProd (decomposeRots (1 : M3)) = 1 :=
  decompose_roundtrip 1 (by unfold unitaryCheck; simp)

end QutritDecompose
